import Mathlib

/-!
# Expected-graph fixture of `query/influxql/spectests/aggregates_with_groupby.go`

The file registers one fixture: a function from an aggregate `flux.Operation`
to an InfluxQL statement and the `flux.Spec` (operation graph) the transpiler
is expected to produce for it.  The definitions below embed that function and
the values it builds; the theorems further down state what the expected graph
looks like for every operation handed to the function.

Values of packages imported by the fixture (`time`, `influxql`, `execute`,
`ast`, `semantic`, `functions`, `flux`) are embedded as far as the fixture
uses them.  Fields the fixture leaves at their Go zero value are not listed.
-/

/-! ## package `time` -/

/-- Two's-complement wrap of an integer into the `int64` range. -/
def wrapInt64 (x : Int) : Int :=
  (x + 2 ^ 63) % 2 ^ 64 - 2 ^ 63

/-- Go `time.Time`, as seconds since the Unix epoch and nanoseconds within the second. -/
structure time.Time where
  sec : Int
  nsec : Int
  deriving DecidableEq, Repr

/-- Nanoseconds since the Unix epoch of an instant (unbounded, for stating results). -/
def time.Time.unixNanoExact (t : time.Time) : Int :=
  t.sec * 1000000000 + t.nsec

/-- Go `time.Unix(sec, nsec)`: `nsec` outside `[0, 1e9)` is carried into `sec`
(Go integer division truncates toward zero). -/
def time.Unix (sec nsec : Int) : time.Time :=
  if nsec < 0 ∨ nsec ≥ 1000000000 then
    let n := Int.tdiv nsec 1000000000
    let sec1 := wrapInt64 (sec + n)
    let nsec1 := wrapInt64 (nsec - wrapInt64 (n * 1000000000))
    if nsec1 < 0 then
      ⟨wrapInt64 (sec1 - 1), wrapInt64 (nsec1 + 1000000000)⟩
    else
      ⟨sec1, nsec1⟩
  else
    ⟨sec, nsec⟩

/-! ## package `influxql` -/

/-- Go `math.MinInt64`. -/
def math.MinInt64 : Int := -(2 ^ 63)

/-- Go `math.MaxInt64`. -/
def math.MaxInt64 : Int := 2 ^ 63 - 1

/-- The constant `influxql.MinTime`: the minimum time that can be represented,
`int64(math.MinInt64) + 2`. -/
def influxql.MinTime : Int := math.MinInt64 + 2

/-- The constant `influxql.MaxTime`: the maximum time that can be represented,
`int64(math.MaxInt64) - 1`. -/
def influxql.MaxTime : Int := math.MaxInt64 - 1

/-! ## package `execute` -/

/-- The constant `execute.DefaultTimeColLabel`. -/
def execute.DefaultTimeColLabel : String := "_time"

/-- The constant `execute.DefaultStartColLabel`. -/
def execute.DefaultStartColLabel : String := "_start"

/-- The constant `execute.DefaultStopColLabel`. -/
def execute.DefaultStopColLabel : String := "_stop"

/-- Go `execute.AggregateConfig`, the configuration embedded in every aggregate spec. -/
structure execute.AggregateConfig where
  TimeSrc : String
  TimeDst : String
  Columns : List String
  deriving DecidableEq, Repr

/-! ## package `ast` -/

/-- Go `ast.LogicalOperatorKind`. -/
inductive ast.LogicalOperatorKind where
  | AndOperator
  | OrOperator
  deriving DecidableEq, Repr

/-- Go `ast.OperatorKind`, the comparison operators. -/
inductive ast.OperatorKind where
  | EqualOperator
  | NotEqualOperator
  | LessThanOperator
  | LessThanEqualOperator
  | GreaterThanOperator
  | GreaterThanEqualOperator
  deriving DecidableEq, Repr

/-! ## package `semantic` -/

/-- Go `semantic.Identifier`. -/
structure semantic.Identifier where
  Name : String
  deriving DecidableEq, Repr

/-- Go `semantic.FunctionParam`; the fixture sets only `Key`. -/
structure semantic.FunctionParam where
  Key : semantic.Identifier
  deriving DecidableEq, Repr

mutual
/-- Go `semantic.Expression`, the node types the fixture builds. -/
inductive semantic.Expression where
  | IdentifierExpression (Name : String)
  | MemberExpression (Object : semantic.Expression) (Property : String)
  | StringLiteral (Value : String)
  | BinaryExpression (Operator : ast.OperatorKind) (Left Right : semantic.Expression)
  | LogicalExpression (Operator : ast.LogicalOperatorKind) (Left Right : semantic.Expression)
  | ObjectExpression (Properties : List semantic.Property)
/-- Go `semantic.Property`: one `key: value` entry of an object expression. -/
inductive semantic.Property where
  | mk (Key : semantic.Identifier) (Value : semantic.Expression)
end

/-- The key of a property. -/
def semantic.Property.Key : semantic.Property → semantic.Identifier
  | .mk k _ => k

/-- The value of a property. -/
def semantic.Property.Value : semantic.Property → semantic.Expression
  | .mk _ v => v

/-- Go `semantic.FunctionExpression`. -/
structure semantic.FunctionExpression where
  Params : List semantic.FunctionParam
  Body : semantic.Expression

/-! ## packages `platform`, `flux` and `functions` -/

/-- Go `platform.ID`, an unsigned 64-bit identifier; the fixture only passes it on. -/
abbrev platform.ID := Nat

/-- Go `flux.OperationID`. -/
abbrev flux.OperationID := String

/-- Go `flux.OperationKind`. -/
abbrev flux.OperationKind := String

/-- Go `flux.Time`: either relative to now or absolute. -/
structure flux.Time where
  IsRelative : Bool := false
  Relative : Int := 0
  Absolute : time.Time
  deriving DecidableEq, Repr

/-- Go `flux.OperationSpec`: the spec types of package `functions` the fixture
builds (`FromOpSpec`, `RangeOpSpec`, `FilterOpSpec`, `GroupOpSpec`, `MapOpSpec`,
`YieldOpSpec`), the window spec, and the aggregate specs (`CountOpSpec`,
`MeanOpSpec`, `SumOpSpec`, ...), which all embed an `execute.AggregateConfig`
and differ in their kind. -/
inductive flux.OperationSpec where
  | FromOpSpec (BucketID : platform.ID)
  | RangeOpSpec (Start Stop : flux.Time) (TimeCol StartCol StopCol : String)
  | FilterOpSpec (Fn : semantic.FunctionExpression)
  | GroupOpSpec (By : List String)
  | WindowOpSpec (Every Period : Int)
  | AggregateOpSpec (kind : flux.OperationKind) (config : execute.AggregateConfig)
  | MapOpSpec (Fn : semantic.FunctionExpression) (MergeKey : Bool)
  | YieldOpSpec (Name : String)

/-- The constant `functions.FromKind`. -/
def functions.FromKind : flux.OperationKind := "from"
/-- The constant `functions.RangeKind`. -/
def functions.RangeKind : flux.OperationKind := "range"
/-- The constant `functions.FilterKind`. -/
def functions.FilterKind : flux.OperationKind := "filter"
/-- The constant `functions.GroupKind`. -/
def functions.GroupKind : flux.OperationKind := "group"
/-- The constant `functions.WindowKind`. -/
def functions.WindowKind : flux.OperationKind := "window"
/-- The constant `functions.MapKind`. -/
def functions.MapKind : flux.OperationKind := "map"
/-- The constant `functions.YieldKind`. -/
def functions.YieldKind : flux.OperationKind := "yield"

/-- The method `Kind()` of `flux.OperationSpec`. -/
def flux.OperationSpec.Kind : flux.OperationSpec → flux.OperationKind
  | .FromOpSpec _ => functions.FromKind
  | .RangeOpSpec _ _ _ _ _ => functions.RangeKind
  | .FilterOpSpec _ => functions.FilterKind
  | .GroupOpSpec _ => functions.GroupKind
  | .WindowOpSpec _ _ => functions.WindowKind
  | .AggregateOpSpec kind _ => kind
  | .MapOpSpec _ _ => functions.MapKind
  | .YieldOpSpec _ => functions.YieldKind

/-- Go `flux.Operation`.  `Spec` is a spec value: the fixture calls `Spec.Kind()`
on its argument, so the argument carries a spec. -/
structure flux.Operation where
  ID : flux.OperationID
  Spec : flux.OperationSpec

/-- Go `flux.Edge`. -/
structure flux.Edge where
  Parent : flux.OperationID
  Child : flux.OperationID
  deriving DecidableEq, Repr

/-- Go `flux.Spec`: the operation graph. -/
structure flux.Spec where
  Operations : List flux.Operation
  Edges : List flux.Edge
  Now : time.Time

/-- An operation is an aggregate operation when its spec is one of the aggregate specs. -/
def flux.Operation.isAggregate (op : flux.Operation) : Bool :=
  match op.Spec with
  | .AggregateOpSpec _ _ => true
  | _ => false

/-- An operation is a Window operation when its spec is a window spec. -/
def flux.Operation.isWindow (op : flux.Operation) : Bool :=
  match op.Spec with
  | .WindowOpSpec _ _ => true
  | _ => false

/-- An operation is a Yield operation when its kind is the Yield kind. -/
def flux.Operation.isYield (op : flux.Operation) : Bool :=
  op.Spec.Kind == functions.YieldKind

/-! ## package `spectests`: the fixture -/

namespace spectests

/-- The statement of the fixture:
`fmt.Sprintf("SELECT %s(value) FROM db0..cpu GROUP BY host", aggregate.Spec.Kind())`. -/
def stmt (aggregate : flux.Operation) : String :=
  "SELECT " ++ aggregate.Spec.Kind ++ "(value) FROM db0..cpu GROUP BY host"

/-- The spec of `from0`. -/
def from0 (bucketID : platform.ID) : flux.Operation :=
  { ID := "from0", Spec := .FromOpSpec bucketID }

/-- The spec of `range0`. -/
def range0 : flux.Operation :=
  { ID := "range0"
    Spec := .RangeOpSpec
      { Absolute := time.Unix 0 influxql.MinTime }
      { Absolute := time.Unix 0 influxql.MaxTime }
      execute.DefaultTimeColLabel
      execute.DefaultStartColLabel
      execute.DefaultStopColLabel }

/-- The spec of `filter0`. -/
def filter0 : flux.Operation :=
  { ID := "filter0"
    Spec := .FilterOpSpec
      { Params := [{ Key := { Name := "r" } }]
        Body := .LogicalExpression .AndOperator
          (.BinaryExpression .EqualOperator
            (.MemberExpression (.IdentifierExpression "r") "_measurement")
            (.StringLiteral "cpu"))
          (.BinaryExpression .EqualOperator
            (.MemberExpression (.IdentifierExpression "r") "_field")
            (.StringLiteral "value")) } }

/-- The spec of `group0`. -/
def group0 : flux.Operation :=
  { ID := "group0", Spec := .GroupOpSpec ["_measurement", "_start", "host"] }

/-- The spec of `map0`; the second key is `string(aggregate.Spec.Kind())`. -/
def map0 (aggregate : flux.Operation) : flux.Operation :=
  { ID := "map0"
    Spec := .MapOpSpec
      { Params := [{ Key := { Name := "r" } }]
        Body := .ObjectExpression
          [ .mk { Name := "_time" }
              (.MemberExpression (.IdentifierExpression "r") "_time"),
            .mk { Name := aggregate.Spec.Kind }
              (.MemberExpression (.IdentifierExpression "r") "_value") ] }
      true }

/-- The spec of `yield0`. -/
def yield0 : flux.Operation :=
  { ID := "yield0", Spec := .YieldOpSpec "0" }

/-- The function passed to `AggregateTest` in `init`.  The package variable
`bucketID` and the value returned by `Now()` are declared elsewhere in the
package and are parameters here. -/
def fixture (bucketID : platform.ID) (now : time.Time) (aggregate : flux.Operation) :
    String × flux.Spec :=
  (stmt aggregate,
   { Operations :=
       [from0 bucketID, range0, filter0, group0, aggregate, map0 aggregate, yield0]
     Edges :=
       [ { Parent := "from0", Child := "range0" },
         { Parent := "range0", Child := "filter0" },
         { Parent := "filter0", Child := "group0" },
         { Parent := "group0", Child := aggregate.ID },
         { Parent := aggregate.ID, Child := "map0" },
         { Parent := "map0", Child := "yield0" } ]
     Now := now })

/-- The expected graph of the fixture. -/
def graph (bucketID : platform.ID) (now : time.Time) (aggregate : flux.Operation) : flux.Spec :=
  (fixture bucketID now aggregate).2

end spectests

/-! ## Graph vocabulary used by the properties -/

/-- Edge relation of a graph on operation IDs: `p` is a parent of `c`. -/
def flux.Spec.IsEdge (g : flux.Spec) (p c : flux.OperationID) : Prop :=
  (⟨p, c⟩ : flux.Edge) ∈ g.Edges

/-- The parents of a node ID, one entry per edge entering it. -/
def flux.Spec.parents (g : flux.Spec) (id : flux.OperationID) : List flux.OperationID :=
  (g.Edges.filter (fun e => e.Child == id)).map (fun e => e.Parent)

/-- The children of a node ID, one entry per edge leaving it. -/
def flux.Spec.children (g : flux.Spec) (id : flux.OperationID) : List flux.OperationID :=
  (g.Edges.filter (fun e => e.Parent == id)).map (fun e => e.Child)

/-- The IDs of the operations of a graph, in order. -/
def flux.Spec.ids (g : flux.Spec) : List flux.OperationID :=
  g.Operations.map (fun op => op.ID)

/-- A node is reachable from `src` when a (possibly empty) chain of edges leads to it. -/
def flux.Spec.Reachable (g : flux.Spec) (src dst : flux.OperationID) : Prop :=
  Relation.ReflTransGen g.IsEdge src dst

/-- A node is a proper ancestor of another when a non-empty chain of edges leads to it. -/
def flux.Spec.Ancestor (g : flux.Spec) (a d : flux.OperationID) : Prop :=
  Relation.TransGen g.IsEdge a d

/-- Sample aggregate: the mean operation the test harness builds. -/
def sampleMean : flux.Operation :=
  { ID := "mean0"
    Spec := .AggregateOpSpec "mean"
      { TimeSrc := "_start", TimeDst := "_time", Columns := ["_value"] } }


/-- Sample aggregate whose ID collides with the fixed ID `group0`. -/
def sampleGroupClash : flux.Operation :=
  { sampleMean with ID := "group0" }

/-- Sample aggregate whose ID collides with the fixed ID `map0`. -/
def sampleMapClash : flux.Operation :=
  { sampleMean with ID := "map0" }

/-- Sample aggregate whose ID collides with the fixed ID `yield0`. -/
def sampleYieldClash : flux.Operation :=
  { sampleMean with ID := "yield0" }

/-- A sample reference instant. -/
def sampleNow : time.Time := ⟨1500000000, 0⟩

/-- The six IDs the fixture assigns itself. -/
def spectests.fixedIDs : List flux.OperationID :=
  ["from0", "range0", "filter0", "group0", "map0", "yield0"]

/-- Position of a node ID along the chain of the expected graph (7 for a foreign ID). -/
def spectests.rank (aid id : flux.OperationID) : Nat :=
  if id = "from0" then 0
  else if id = "range0" then 1
  else if id = "filter0" then 2
  else if id = "group0" then 3
  else if id = aid then 4
  else if id = "map0" then 5
  else if id = "yield0" then 6
  else 7

/-! ## Properties of the operation list -/

open spectests

/-- C1: for every aggregate operation `a`, the expected graph has exactly 7
operations, in the order from0 (From, carrying `bucketID`), range0 (Range),
filter0 (Filter), group0 (Group), `a` itself unchanged, map0 (Map), yield0
(Yield); no operation is a Window operation and exactly one is an aggregate
operation. -/
theorem operations_chain (bucketID : platform.ID) (now : time.Time) (a : flux.Operation)
    (ha : a.isAggregate = true) :
    (graph bucketID now a).Operations.length = 7 ∧
    (graph bucketID now a).ids =
      ["from0", "range0", "filter0", "group0", a.ID, "map0", "yield0"] ∧
    (graph bucketID now a).Operations.map (fun op => op.Spec.Kind) =
      [functions.FromKind, functions.RangeKind, functions.FilterKind, functions.GroupKind,
        a.Spec.Kind, functions.MapKind, functions.YieldKind] ∧
    (graph bucketID now a).Operations[0]? = some ⟨"from0", .FromOpSpec bucketID⟩ ∧
    (∃ start stop tc sc ec, (graph bucketID now a).Operations[1]? =
      some ⟨"range0", .RangeOpSpec start stop tc sc ec⟩) ∧
    (∃ fn, (graph bucketID now a).Operations[2]? = some ⟨"filter0", .FilterOpSpec fn⟩) ∧
    (∃ keys, (graph bucketID now a).Operations[3]? = some ⟨"group0", .GroupOpSpec keys⟩) ∧
    (graph bucketID now a).Operations[4]? = some a ∧
    (∃ fn mk, (graph bucketID now a).Operations[5]? = some ⟨"map0", .MapOpSpec fn mk⟩) ∧
    (∃ name, (graph bucketID now a).Operations[6]? = some ⟨"yield0", .YieldOpSpec name⟩) ∧
    (∀ op ∈ (graph bucketID now a).Operations, op.isWindow = false) ∧
    (graph bucketID now a).Operations.countP (fun op => op.isAggregate) = 1 := by
  obtain ⟨aid, aspec⟩ := a
  cases aspec <;> simp [flux.Operation.isAggregate] at ha
  refine ⟨rfl, rfl, rfl, rfl, ⟨_, _, _, _, _, rfl⟩, ⟨_, rfl⟩, ⟨_, rfl⟩, rfl, ⟨_, _, rfl⟩,
    ⟨_, rfl⟩, ?_, ?_⟩
  · intro op hop
    simp only [graph, fixture, List.mem_cons, List.mem_singleton, List.not_mem_nil,
      or_false] at hop
    rcases hop with h | h | h | h | h | h | h <;> subst h <;> rfl
  · simp [graph, fixture, List.countP_cons, flux.Operation.isAggregate, from0, range0,
      filter0, group0, map0, yield0]

/-- Witness for C1 at the mean aggregate. -/
theorem operations_chain_witness :
    sampleMean.isAggregate = true ∧
    (graph 1 sampleNow sampleMean).Operations.length = 7 ∧
    (graph 1 sampleNow sampleMean).Operations.countP (fun op => op.isAggregate) = 1 :=
  ⟨rfl, (operations_chain 1 sampleNow sampleMean rfl).1,
    (operations_chain 1 sampleNow sampleMean rfl).2.2.2.2.2.2.2.2.2.2.2⟩

/-! ## Properties of the edge list -/

/-- The edges of the expected graph, spelled out. -/
theorem isEdge_iff (bucketID : platform.ID) (now : time.Time) (a : flux.Operation)
    (p c : flux.OperationID) :
    (graph bucketID now a).IsEdge p c ↔
      (p = "from0" ∧ c = "range0") ∨ (p = "range0" ∧ c = "filter0") ∨
      (p = "filter0" ∧ c = "group0") ∨ (p = "group0" ∧ c = a.ID) ∨
      (p = a.ID ∧ c = "map0") ∨ (p = "map0" ∧ c = "yield0") := by
  simp [flux.Spec.IsEdge, graph, fixture]

/-- C2, counterexample: with an aggregate whose ID is `group0`, two edges leave
`group0`; with an aggregate whose ID is `map0`, two edges enter `map0`. -/
theorem edges_only_edge_fails :
    sampleGroupClash.isAggregate = true ∧
    (graph 1 sampleNow sampleGroupClash).Edges.filter (fun e => e.Parent == "group0") =
      [⟨"group0", "group0"⟩, ⟨"group0", "map0"⟩] ∧
    (graph 1 sampleNow sampleGroupClash).Edges.filter (fun e => e.Parent == "group0") ≠
      [⟨"group0", sampleGroupClash.ID⟩] ∧
    sampleMapClash.isAggregate = true ∧
    (graph 1 sampleNow sampleMapClash).Edges.filter (fun e => e.Child == "map0") =
      [⟨"group0", "map0"⟩, ⟨"map0", "map0"⟩] ∧
    (graph 1 sampleNow sampleMapClash).Edges.filter (fun e => e.Child == "map0") ≠
      [⟨sampleMapClash.ID, "map0"⟩] := by
  decide

/-- C2, amended: for every aggregate operation `a` the expected graph has exactly
6 edges, the i-th edge joins the i-th operation to the (i+1)-th, every edge
endpoint is the ID of an operation of the list, an edge goes from group0 to `a`
and one from `a` to map0; when the ID of `a` is not `group0` that edge is the
only one leaving group0, and when it is not `map0` the edge from `a` is the only
one entering map0. -/
theorem edges_chain (bucketID : platform.ID) (now : time.Time) (a : flux.Operation) :
    (graph bucketID now a).Edges.length = 6 ∧
    (∀ i, i < 6 → ∃ p c, (graph bucketID now a).ids[i]? = some p ∧
      (graph bucketID now a).ids[i + 1]? = some c ∧
      (graph bucketID now a).Edges[i]? = some ⟨p, c⟩) ∧
    (∀ e ∈ (graph bucketID now a).Edges,
      e.Parent ∈ (graph bucketID now a).ids ∧ e.Child ∈ (graph bucketID now a).ids) ∧
    (graph bucketID now a).Edges[3]? = some ⟨"group0", a.ID⟩ ∧
    (graph bucketID now a).Edges[4]? = some ⟨a.ID, "map0"⟩ ∧
    (a.ID ≠ "group0" →
      (graph bucketID now a).Edges.filter (fun e => e.Parent == "group0") =
        [⟨"group0", a.ID⟩]) ∧
    (a.ID ≠ "map0" →
      (graph bucketID now a).Edges.filter (fun e => e.Child == "map0") =
        [⟨a.ID, "map0"⟩]) := by
  refine ⟨rfl, ?_, ?_, rfl, rfl, ?_, ?_⟩
  · intro i hi
    have hcases : i = 0 ∨ i = 1 ∨ i = 2 ∨ i = 3 ∨ i = 4 ∨ i = 5 := by omega
    rcases hcases with h | h | h | h | h | h <;> subst h <;> exact ⟨_, _, rfl, rfl, rfl⟩
  · intro e he
    simp only [graph, fixture, List.mem_cons, List.mem_singleton, List.not_mem_nil,
      or_false] at he
    rcases he with h | h | h | h | h | h <;> subst h <;>
      simp [flux.Spec.ids, graph, fixture, from0, range0, filter0, group0, map0, yield0]
  · intro h
    simp [graph, fixture, List.filter_cons, h]
  · intro h
    have h' : ¬ ("map0" = a.ID) := fun e => h e.symm
    simp [graph, fixture, List.filter_cons, h, h']

/-- Witness for C2 (amended) at the mean aggregate. -/
theorem edges_chain_witness :
    (graph 1 sampleNow sampleMean).Edges.filter (fun e => e.Parent == "group0") =
      [⟨"group0", "mean0"⟩] ∧
    (graph 1 sampleNow sampleMean).Edges.filter (fun e => e.Child == "map0") =
      [⟨"mean0", "map0"⟩] :=
  ⟨(edges_chain 1 sampleNow sampleMean).2.2.2.2.2.1 (by decide),
    (edges_chain 1 sampleNow sampleMean).2.2.2.2.2.2 (by decide)⟩

/-! ## Unique identifiers -/

/-- C4, counterexample: with an aggregate whose ID is `map0` the ID `map0`
occurs twice among the operations. -/
theorem ids_nodup_fails :
    sampleMapClash.isAggregate = true ∧
    (graph 1 sampleNow sampleMapClash).ids =
      ["from0", "range0", "filter0", "group0", "map0", "map0", "yield0"] ∧
    ¬ (graph 1 sampleNow sampleMapClash).ids.Nodup := by
  decide

/-- C4, amended: for every aggregate operation `a` whose ID is none of from0,
range0, filter0, group0, map0, yield0, the 7 operations of the expected graph
have pairwise distinct IDs. -/
theorem ids_nodup (bucketID : platform.ID) (now : time.Time) (a : flux.Operation)
    (hid : a.ID ∉ fixedIDs) :
    (graph bucketID now a).ids.length = 7 ∧ (graph bucketID now a).ids.Nodup := by
  simp only [fixedIDs, List.mem_cons, List.mem_singleton, List.not_mem_nil, or_false,
    not_or] at hid
  obtain ⟨h1, h2, h3, h4, h5, h6⟩ := hid
  refine ⟨rfl, ?_⟩
  simp [flux.Spec.ids, graph, fixture, from0, range0, filter0, group0, map0, yield0]
  exact ⟨fun e => h1 e.symm, fun e => h2 e.symm, fun e => h3 e.symm, fun e => h4 e.symm, h5, h6⟩

/-- Witness for C4 (amended) at the mean aggregate. -/
theorem ids_nodup_witness :
    sampleMean.ID ∉ fixedIDs ∧ (graph 1 sampleNow sampleMean).ids.Nodup :=
  ⟨by decide, (ids_nodup 1 sampleNow sampleMean (by decide)).2⟩

/-! ## Graph invariants -/

/-- The hypothesis that an ID is none of the fixed ones, as six inequalities in
both orientations. -/
theorem not_mem_fixedIDs {aid : flux.OperationID} (hid : aid ∉ fixedIDs) :
    (aid ≠ "from0" ∧ aid ≠ "range0" ∧ aid ≠ "filter0" ∧ aid ≠ "group0" ∧ aid ≠ "map0" ∧
      aid ≠ "yield0") ∧
    ("from0" ≠ aid ∧ "range0" ≠ aid ∧ "filter0" ≠ aid ∧ "group0" ≠ aid ∧ "map0" ≠ aid ∧
      "yield0" ≠ aid) := by
  simp only [fixedIDs, List.mem_cons, List.mem_singleton, List.not_mem_nil, or_false,
    not_or] at hid
  obtain ⟨h1, h2, h3, h4, h5, h6⟩ := hid
  exact ⟨⟨h1, h2, h3, h4, h5, h6⟩, fun e => h1 e.symm, fun e => h2 e.symm,
    fun e => h3 e.symm, fun e => h4 e.symm, fun e => h5 e.symm, fun e => h6 e.symm⟩

/-- Every edge of the expected graph goes one step down the chain. -/
theorem rank_edge (bucketID : platform.ID) (now : time.Time) (a : flux.Operation)
    (hid : a.ID ∉ fixedIDs) {p c : flux.OperationID}
    (h : (graph bucketID now a).IsEdge p c) : rank a.ID p < rank a.ID c := by
  obtain ⟨⟨h1, h2, h3, h4, h5, h6⟩, g1, g2, g3, g4, g5, g6⟩ := not_mem_fixedIDs hid
  rw [isEdge_iff] at h
  rcases h with ⟨rfl, rfl⟩ | ⟨rfl, rfl⟩ | ⟨rfl, rfl⟩ | ⟨rfl, rfl⟩ | ⟨rfl, rfl⟩ | ⟨rfl, rfl⟩ <;>
    simp [rank, h1, h2, h3, h4, h5, h6, g1, g2, g3, g4, g5, g6]

/-- A proper ancestor sits strictly earlier in the chain. -/
theorem rank_ancestor (bucketID : platform.ID) (now : time.Time) (a : flux.Operation)
    (hid : a.ID ∉ fixedIDs) {u v : flux.OperationID}
    (h : (graph bucketID now a).Ancestor u v) : rank a.ID u < rank a.ID v := by
  induction h with
  | single e => exact rank_edge bucketID now a hid e
  | tail _ e ih => exact lt_trans ih (rank_edge bucketID now a hid e)

/-- The parents of each node of the expected graph. -/
theorem parents_values (bucketID : platform.ID) (now : time.Time) (a : flux.Operation)
    (hid : a.ID ∉ fixedIDs) :
    (graph bucketID now a).parents "from0" = [] ∧
    (graph bucketID now a).parents "range0" = ["from0"] ∧
    (graph bucketID now a).parents "filter0" = ["range0"] ∧
    (graph bucketID now a).parents "group0" = ["filter0"] ∧
    (graph bucketID now a).parents a.ID = ["group0"] ∧
    (graph bucketID now a).parents "map0" = [a.ID] ∧
    (graph bucketID now a).parents "yield0" = ["map0"] := by
  obtain ⟨⟨h1, h2, h3, h4, h5, h6⟩, g1, g2, g3, g4, g5, g6⟩ := not_mem_fixedIDs hid
  refine ⟨?_, ?_, ?_, ?_, ?_, ?_, ?_⟩ <;>
    simp [flux.Spec.parents, graph, fixture, List.filter_cons, h1, h2, h3, h4, h5, h6,
      g1, g2, g3, g4, g5, g6]

/-- Every node of the chain is reachable from `from0`. -/
theorem reachable_values (bucketID : platform.ID) (now : time.Time) (a : flux.Operation) :
    (graph bucketID now a).Reachable "from0" "from0" ∧
    (graph bucketID now a).Reachable "from0" "range0" ∧
    (graph bucketID now a).Reachable "from0" "filter0" ∧
    (graph bucketID now a).Reachable "from0" "group0" ∧
    (graph bucketID now a).Reachable "from0" a.ID ∧
    (graph bucketID now a).Reachable "from0" "map0" ∧
    (graph bucketID now a).Reachable "from0" "yield0" := by
  have e1 : (graph bucketID now a).IsEdge "from0" "range0" := by simp [isEdge_iff]
  have e2 : (graph bucketID now a).IsEdge "range0" "filter0" := by simp [isEdge_iff]
  have e3 : (graph bucketID now a).IsEdge "filter0" "group0" := by simp [isEdge_iff]
  have e4 : (graph bucketID now a).IsEdge "group0" a.ID := by simp [isEdge_iff]
  have e5 : (graph bucketID now a).IsEdge a.ID "map0" := by simp [isEdge_iff]
  have e6 : (graph bucketID now a).IsEdge "map0" "yield0" := by simp [isEdge_iff]
  have r0 : (graph bucketID now a).Reachable "from0" "from0" := Relation.ReflTransGen.refl
  have r1 := Relation.ReflTransGen.tail r0 e1
  have r2 := Relation.ReflTransGen.tail r1 e2
  have r3 := Relation.ReflTransGen.tail r2 e3
  have r4 := Relation.ReflTransGen.tail r3 e4
  have r5 := Relation.ReflTransGen.tail r4 e5
  have r6 := Relation.ReflTransGen.tail r5 e6
  exact ⟨r0, r1, r2, r3, r4, r5, r6⟩

/-- C3: for every aggregate operation `a` whose ID is none of from0, range0,
filter0, group0, map0, yield0, the expected graph is acyclic (no node ID is its
own ancestor), from0 is the only node without a parent, every other node has
exactly one parent, and every node is reachable from from0. -/
theorem graph_invariants (bucketID : platform.ID) (now : time.Time) (a : flux.Operation)
    (hid : a.ID ∉ fixedIDs) :
    (∀ id, ¬ (graph bucketID now a).Ancestor id id) ∧
    (∀ op ∈ (graph bucketID now a).Operations,
      (graph bucketID now a).parents op.ID = [] ↔ op.ID = "from0") ∧
    (∀ op ∈ (graph bucketID now a).Operations,
      op.ID ≠ "from0" → ((graph bucketID now a).parents op.ID).length = 1) ∧
    (∀ op ∈ (graph bucketID now a).Operations,
      (graph bucketID now a).Reachable "from0" op.ID) := by
  obtain ⟨⟨h1, h2, h3, h4, h5, h6⟩, -⟩ := not_mem_fixedIDs hid
  obtain ⟨p0, p1, p2, p3, p4, p5, p6⟩ := parents_values bucketID now a hid
  obtain ⟨r0, r1, r2, r3, r4, r5, r6⟩ := reachable_values bucketID now a
  have hmem : ∀ op ∈ (graph bucketID now a).Operations,
      op.ID = "from0" ∨ op.ID = "range0" ∨ op.ID = "filter0" ∨ op.ID = "group0" ∨
      op.ID = a.ID ∨ op.ID = "map0" ∨ op.ID = "yield0" := by
    intro op hop
    simp only [graph, fixture, List.mem_cons, List.mem_singleton, List.not_mem_nil,
      or_false] at hop
    rcases hop with h | h | h | h | h | h | h <;> subst h <;>
      simp [from0, range0, filter0, group0, map0, yield0]
  refine ⟨?_, ?_, ?_, ?_⟩
  · intro id h
    exact lt_irrefl _ (rank_ancestor bucketID now a hid h)
  · intro op hop
    rcases hmem op hop with h | h | h | h | h | h | h <;> rw [h] <;>
      simp [p0, p1, p2, p3, p4, p5, p6, h1]
  · intro op hop hne
    rcases hmem op hop with h | h | h | h | h | h | h <;> rw [h] <;>
      simp_all
  · intro op hop
    rcases hmem op hop with h | h | h | h | h | h | h <;> rw [h] <;> assumption

/-- Witness for C3 at the mean aggregate. -/
theorem graph_invariants_witness :
    sampleMean.ID ∉ fixedIDs ∧
    (∀ id, ¬ (graph 1 sampleNow sampleMean).Ancestor id id) ∧
    (∀ op ∈ (graph 1 sampleNow sampleMean).Operations,
      (graph 1 sampleNow sampleMean).Reachable "from0" op.ID) :=
  ⟨by decide, (graph_invariants 1 sampleNow sampleMean (by decide)).1,
    (graph_invariants 1 sampleNow sampleMean (by decide)).2.2.2⟩

/-! ## The individual operations -/

/-- C5: for every aggregate operation `a`, map0's function has the single
parameter `r` and its body is an object with exactly two properties in this
order: key `_time` with value `r._time`, and key equal to the kind of `a` with
value `r._value`; `MergeKey` is true. -/
theorem map0_shape (bucketID : platform.ID) (now : time.Time) (a : flux.Operation) :
    (graph bucketID now a).Operations[5]? = some ⟨"map0", .MapOpSpec
      ⟨[⟨⟨"r"⟩⟩], .ObjectExpression
        [ .mk ⟨"_time"⟩ (.MemberExpression (.IdentifierExpression "r") "_time"),
          .mk ⟨a.Spec.Kind⟩ (.MemberExpression (.IdentifierExpression "r") "_value") ]⟩
      true⟩ ∧
    (∃ fn props, (graph bucketID now a).Operations[5]? = some ⟨"map0", .MapOpSpec fn true⟩ ∧
      fn.Params.map (fun p => p.Key.Name) = ["r"] ∧
      fn.Body = .ObjectExpression props ∧
      props.length = 2 ∧
      props.map (fun p => p.Key.Name) = [execute.DefaultTimeColLabel, a.Spec.Kind] ∧
      props.map (fun p => p.Value) =
        [ .MemberExpression (.IdentifierExpression "r") "_time",
          .MemberExpression (.IdentifierExpression "r") "_value" ]) :=
  ⟨rfl, _, _, rfl, rfl, rfl, rfl, rfl, rfl⟩

/-- C6: for every aggregate operation `a`, filter0's function has the single
parameter `r` and its body is the logical AND of `r._measurement == "cpu"` and
`r._field == "value"`, both with string literals and nothing else; the filter
is the same for every `a`. -/
theorem filter0_shape (bucketID : platform.ID) (now : time.Time) (a : flux.Operation) :
    (graph bucketID now a).Operations[2]? = some ⟨"filter0", .FilterOpSpec
      ⟨[⟨⟨"r"⟩⟩], .LogicalExpression .AndOperator
        (.BinaryExpression .EqualOperator
          (.MemberExpression (.IdentifierExpression "r") "_measurement")
          (.StringLiteral "cpu"))
        (.BinaryExpression .EqualOperator
          (.MemberExpression (.IdentifierExpression "r") "_field")
          (.StringLiteral "value"))⟩⟩ ∧
    (∀ (bucketID' : platform.ID) (now' : time.Time) (a' : flux.Operation),
      (graph bucketID' now' a').Operations[2]? = (graph bucketID now a).Operations[2]?) :=
  ⟨rfl, fun _ _ _ => rfl⟩

/-- C7: for every aggregate operation `a`, group0's key list is exactly
`["_measurement", "_start", "host"]`: the measurement label, the default
window-start label, then the dimension `host`, without duplicates. -/
theorem group0_keys (bucketID : platform.ID) (now : time.Time) (a : flux.Operation) :
    (graph bucketID now a).Operations[3]? =
      some ⟨"group0", .GroupOpSpec ["_measurement", "_start", "host"]⟩ ∧
    (graph bucketID now a).Operations[3]? =
      some ⟨"group0", .GroupOpSpec ["_measurement", execute.DefaultStartColLabel, "host"]⟩ ∧
    (["_measurement", "_start", "host"] : List String).Nodup :=
  ⟨rfl, rfl, by decide⟩

/-- C8: for every aggregate operation `a` and every value `now` of `Now()`,
range0's Start is the absolute instant `time.Unix(0, influxql.MinTime)` and its
Stop the absolute instant `time.Unix(0, influxql.MaxTime)`, neither relative;
its time, start and stop columns are the default labels; `now` is the graph's
`Now` field and changes nothing else of the fixture's result. -/
theorem range0_bounds (bucketID : platform.ID) (now : time.Time) (a : flux.Operation) :
    (graph bucketID now a).Operations[1]? = some ⟨"range0", .RangeOpSpec
      ⟨false, 0, time.Unix 0 influxql.MinTime⟩ ⟨false, 0, time.Unix 0 influxql.MaxTime⟩
      execute.DefaultTimeColLabel execute.DefaultStartColLabel
      execute.DefaultStopColLabel⟩ ∧
    (time.Unix 0 influxql.MinTime).unixNanoExact = -(2 ^ 63) + 2 ∧
    (time.Unix 0 influxql.MaxTime).unixNanoExact = 2 ^ 63 - 2 ∧
    (graph bucketID now a).Now = now ∧
    (∀ now' : time.Time,
      (fixture bucketID now' a).1 = (fixture bucketID now a).1 ∧
      (graph bucketID now' a).Operations = (graph bucketID now a).Operations ∧
      (graph bucketID now' a).Edges = (graph bucketID now a).Edges) :=
  ⟨rfl, by decide, by decide, rfl, fun _ => ⟨rfl, rfl, rfl⟩⟩

/-! ## The yield -/

/-- C9, counterexample: with an aggregate of kind `mean` whose ID is `yield0`,
the node `yield0` has the two parents group0 and map0, and an edge leaves it. -/
theorem yield0_only_parent_fails :
    sampleYieldClash.Spec.Kind ≠ functions.YieldKind ∧
    sampleYieldClash.isAggregate = true ∧
    (graph 1 sampleNow sampleYieldClash).parents "yield0" = ["group0", "map0"] ∧
    (graph 1 sampleNow sampleYieldClash).parents "yield0" ≠ ["map0"] ∧
    (graph 1 sampleNow sampleYieldClash).children "yield0" = ["map0"] ∧
    (graph 1 sampleNow sampleYieldClash).children "yield0" ≠ [] := by
  decide

/-- C9, amended: for every aggregate operation `a` whose kind is not the Yield
kind, the expected graph contains exactly one Yield operation; its name is "0"
and it is the last operation; when the ID of `a` is not `yield0`, its only
parent is map0 and no edge leaves it. -/
theorem yield0_unique (bucketID : platform.ID) (now : time.Time) (a : flux.Operation)
    (hk : a.Spec.Kind ≠ functions.YieldKind) :
    (graph bucketID now a).Operations.countP (fun op => op.isYield) = 1 ∧
    (graph bucketID now a).Operations.filter (fun op => op.isYield) =
      [⟨"yield0", .YieldOpSpec "0"⟩] ∧
    (graph bucketID now a).Operations.getLast? = some ⟨"yield0", .YieldOpSpec "0"⟩ ∧
    (a.ID ≠ "yield0" →
      (graph bucketID now a).parents "yield0" = ["map0"] ∧
      (graph bucketID now a).children "yield0" = []) := by
  have hy : a.isYield = false := by
    simpa [flux.Operation.isYield] using hk
  have hf : (graph bucketID now a).Operations.filter (fun op => op.isYield) =
      [⟨"yield0", .YieldOpSpec "0"⟩] := by
    have y0 : (from0 bucketID).isYield = false := by
      simp [flux.Operation.isYield, from0, flux.OperationSpec.Kind, functions.FromKind,
        functions.YieldKind]
    have y1 : range0.isYield = false := by decide
    have y2 : filter0.isYield = false := by decide
    have y3 : group0.isYield = false := by decide
    have y5 : (map0 a).isYield = false := by
      simp [flux.Operation.isYield, map0, flux.OperationSpec.Kind, functions.MapKind,
        functions.YieldKind]
    have y6 : yield0.isYield = true := by decide
    simp only [graph, fixture, List.filter_cons, hy, y0, y1, y2, y3, y5, y6]
    simp [yield0]
  refine ⟨?_, hf, rfl, ?_⟩
  · rw [List.countP_eq_length_filter, hf]; rfl
  · intro hid
    have hid' : ¬ ("yield0" = a.ID) := fun e => hid e.symm
    constructor
    · simp [flux.Spec.parents, graph, fixture, List.filter_cons, hid, hid']
    · simp [flux.Spec.children, graph, fixture, List.filter_cons, hid, hid']

/-- Witness for C9 (amended) at the mean aggregate, and at the mean aggregate
with ID `yield0` for the part that needs no ID hypothesis. -/
theorem yield0_unique_witness :
    sampleMean.Spec.Kind ≠ functions.YieldKind ∧ sampleMean.ID ≠ "yield0" ∧
    (graph 1 sampleNow sampleMean).Operations.countP (fun op => op.isYield) = 1 ∧
    (graph 1 sampleNow sampleMean).parents "yield0" = ["map0"] ∧
    (graph 1 sampleNow sampleMean).children "yield0" = [] ∧
    sampleYieldClash.Spec.Kind ≠ functions.YieldKind ∧
    (graph 1 sampleNow sampleYieldClash).Operations.countP (fun op => op.isYield) = 1 ∧
    (graph 1 sampleNow sampleYieldClash).Operations.getLast? =
      some ⟨"yield0", .YieldOpSpec "0"⟩ :=
  ⟨by decide, by decide,
    (yield0_unique 1 sampleNow sampleMean (by decide)).1,
    ((yield0_unique 1 sampleNow sampleMean (by decide)).2.2.2 (by decide)).1,
    ((yield0_unique 1 sampleNow sampleMean (by decide)).2.2.2 (by decide)).2,
    by decide,
    (yield0_unique 1 sampleNow sampleYieldClash (by decide)).1,
    (yield0_unique 1 sampleNow sampleYieldClash (by decide)).2.2.1⟩

/-! ## The statement -/

/-- Appending the same text before and after two strings keeps them apart. -/
theorem append_both_cancel (p s k k' : String) (h : p ++ k ++ s = p ++ k' ++ s) : k = k' := by
  have hd := congrArg String.data h
  simp only [String.data_append] at hd
  have h1 := List.append_cancel_right hd
  have h2 := List.append_cancel_left h1
  exact String.ext h2

/-- C10: for every aggregate operation `a` with kind `k`, the statement is
`"SELECT " ++ k ++ "(value) FROM db0..cpu GROUP BY host"`; two aggregate
operations give the same statement exactly when they have the same kind; and
the function name in the statement is the second column key of map0. -/
theorem stmt_shape (bucketID : platform.ID) (now : time.Time) (a : flux.Operation) :
    (fixture bucketID now a).1 =
      "SELECT " ++ a.Spec.Kind ++ "(value) FROM db0..cpu GROUP BY host" ∧
    (∀ (bucketID' : platform.ID) (now' : time.Time) (a' : flux.Operation),
      (fixture bucketID' now' a').1 = (fixture bucketID now a).1 ↔
        a'.Spec.Kind = a.Spec.Kind) ∧
    (∃ fn first value mk, (graph bucketID now a).Operations[5]? =
        some ⟨"map0", .MapOpSpec fn mk⟩ ∧
      fn.Body = .ObjectExpression [first, .mk ⟨a.Spec.Kind⟩ value] ∧
      (fixture bucketID now a).1 =
        "SELECT " ++ a.Spec.Kind ++ "(value) FROM db0..cpu GROUP BY host") := by
  refine ⟨rfl, ?_, ⟨_, _, _, _, rfl, rfl, rfl⟩⟩
  intro bucketID' now' a'
  constructor
  · intro h
    exact append_both_cancel _ _ _ _ h
  · intro h
    simp [fixture, stmt, h]
